import Mathlib

/-!
Shallow embedding of the deterministic-rollback platformer core
(source files: src/input.rs and src/game.rs).

Modelling conventions:
* Machine bytes (the u8 input bitmask, the u8 jump counter) are Nat; the
  one place where u8 wraparound could matter, the decrement of
  jumps_remaining, is modelled explicitly as addition of 255 modulo 256.
* Velocities are rational numbers; every write the simulation performs
  (direction.x * 7.0, the jump impulse 10.0) is exact in both f32 and Rat,
  so Rat is a faithful carrier for these operations.
* Bevy entities are Nat identifiers; the parent relation of the child
  collider query is a function from entity to optional parent entity.
* The Bevy EventReader over collision events is modelled by threading the
  list of not-yet-read events through the per-player loop: reading the
  iterator to completion leaves the empty list for later iterations,
  exactly as EventReader.read marks all current events as read.
-/

namespace Platformer

/-! ### src/input.rs -/

def INPUT_UP : Nat := 1
def INPUT_LEFT : Nat := 2
def INPUT_RIGHT : Nat := 4
def INPUT_STRIKE : Nat := 8
def INPUT_UP_PRESSED : Nat := 16

/-- Two-dimensional vector with rational components, standing in for Vec2. -/
structure Vec2 where
  x : ℚ
  y : ℚ
deriving DecidableEq

/-- src/input.rs get_input_direction: start from Vec2::ZERO, add 1 to x when
the RIGHT bit is set, subtract 1 when the LEFT bit is set. -/
def get_input_direction (input : Nat) : Vec2 :=
  let direction : Vec2 := ⟨0, 0⟩
  let direction : Vec2 :=
    if input &&& INPUT_RIGHT ≠ 0 then { direction with x := direction.x + 1 } else direction
  let direction : Vec2 :=
    if input &&& INPUT_LEFT ≠ 0 then { direction with x := direction.x - 1 } else direction
  direction

/-! ### src/game.rs data model -/

/-- The Player component: handle, jumps_remaining (u8), is_grounded,
previous_input (u8 bitmask of the preceding tick). -/
structure Player where
  handle : Nat
  jumps_remaining : Nat
  is_grounded : Bool
  previous_input : Nat
deriving DecidableEq

/-- One collision event: the pair of colliding entity identifiers. -/
structure Contacts where
  entity1 : Nat
  entity2 : Nat
deriving DecidableEq

/-- u8 wrapping decrement, the semantics of jumps_remaining -= 1 on a byte. -/
def u8_dec (n : Nat) : Nat := (n + 255) % 256

/-- Is either colliding entity, or its parent from the child query, this player? -/
def is_player_collision (parent : Nat → Option Nat) (player_entity : Nat) (c : Contacts) : Bool :=
  player_entity == c.entity1 || player_entity == c.entity2 ||
    parent c.entity1 == some player_entity || parent c.entity2 == some player_entity

/-- Is either colliding entity the ground body? -/
def has_ground (ground_entity : Nat) (c : Contacts) : Bool :=
  c.entity1 == ground_entity || c.entity2 == ground_entity

/-- Body of the collision loop for one event: on a grounding contact set
is_grounded, and reset jumps_remaining to 2 unless mid-jump or already full. -/
def groundCheck (parent : Nat → Option Nat) (ground_entity player_entity : Nat)
    (is_jumping : Bool) (p : Player) (c : Contacts) : Player :=
  if is_player_collision parent player_entity c && has_ground ground_entity c then
    let p := { p with is_grounded := true }
    if !is_jumping && decide (p.jumps_remaining < 2) then
      { p with jumps_remaining := 2 }
    else p
  else p

/-- The collision-scan loop of move_players for one player, over the events
the EventReader yields to that iteration. -/
def groundScan (parent : Nat → Option Nat) (ground_entity player_entity : Nat)
    (is_jumping : Bool) : Player → List Contacts → Player
  | p, [] => p
  | p, c :: cs =>
      groundScan parent ground_entity player_entity is_jumping
        (groundCheck parent ground_entity player_entity is_jumping p c) cs

/-- The jump-trigger test of move_players: UP held now, UP clear in the stored
previous input, and at least one jump remaining. -/
def jump_now (p : Player) (input : Nat) : Bool :=
  ((input &&& INPUT_UP != 0) && (p.previous_input &&& INPUT_UP == 0))
    && decide (0 < p.jumps_remaining)

/-- Result of one iteration of the move_players loop for a single player:
the updated Player component, LinearVelocity, and sprite flip_x. -/
structure StepOut where
  player : Player
  velocity : Vec2
  flip_x : Bool
deriving DecidableEq

/-- One iteration of the move_players loop (src/game.rs lines 307-363):
sprite flip, horizontal velocity assignment, jump edge detection, storing
previous_input, resetting is_grounded, and the collision scan. -/
def move_player (parent : Nat → Option Nat) (ground_entity player_entity : Nat)
    (input : Nat) (evs : List Contacts) (p : Player) (velocity : Vec2)
    (flip_x : Bool) : StepOut :=
  let flip_x :=
    if input &&& INPUT_LEFT ≠ 0 then true
    else if input &&& INPUT_RIGHT ≠ 0 then false
    else flip_x
  let direction := get_input_direction input
  let move_speed : ℚ := 7
  let velocity : Vec2 := { velocity with x := direction.x * move_speed }
  let is_jumping := jump_now p input
  let velocity := if is_jumping then { velocity with y := 10 } else velocity
  let p := if is_jumping then { p with jumps_remaining := u8_dec p.jumps_remaining } else p
  let p := { p with previous_input := input }
  let p := { p with is_grounded := false }
  let p := groundScan parent ground_entity player_entity is_jumping p evs
  ⟨p, velocity, flip_x⟩

/-- One row of the move_players query: the player entity id with its Player
component, LinearVelocity and sprite flip state. -/
structure PlayerRow where
  entity : Nat
  player : Player
  velocity : Vec2
  flip_x : Bool
deriving DecidableEq

/-- The per-player loop of move_players, threading the EventReader state:
the first iteration reads every pending collision event, so every later
iteration sees none. -/
def move_players_loop (parent : Nat → Option Nat) (ground_entity : Nat)
    (inputs : Nat → Nat) : List Contacts → List PlayerRow → List PlayerRow
  | _, [] => []
  | evs, row :: rest =>
      let out := move_player parent ground_entity row.entity
        (inputs row.player.handle) evs row.player row.velocity row.flip_x
      { row with player := out.player, velocity := out.velocity, flip_x := out.flip_x }
        :: move_players_loop parent ground_entity inputs [] rest

/-- src/game.rs move_players: bail out unless the ground query yields exactly
one entity, then run the per-player loop. -/
def move_players (ground_entity : Option Nat) (parent : Nat → Option Nat)
    (inputs : Nat → Nat) (evs : List Contacts) (rows : List PlayerRow) :
    List PlayerRow :=
  match ground_entity with
  | none => rows
  | some g => move_players_loop parent g inputs evs rows

/-- A grounding contact for a given player: the event matches both the player
test and the ground test of the collision scan. -/
def grounding_contact (parent : Nat → Option Nat) (ground_entity player_entity : Nat)
    (c : Contacts) : Bool :=
  is_player_collision parent player_entity c && has_ground ground_entity c

/-- Iterating the per-player step of move_players over a sequence of ticks,
feeding each tick an input mask and the collision events its scan reads. -/
def run_ticks (parent : Nat → Option Nat) (g pe : Nat) :
    Player × Vec2 × Bool → List (Nat × List Contacts) → Player × Vec2 × Bool
  | s, [] => s
  | s, (input, evs) :: rest =>
      let out := move_player parent g pe input evs s.1 s.2.1 s.2.2
      run_ticks parent g pe (out.player, out.velocity, out.flip_x) rest

/-- Stated from the claim text, to compare against get_input_direction: the
horizontal direction is +1 when MOVE_RIGHT is set and MOVE_LEFT is not, -1
when MOVE_LEFT is set and MOVE_RIGHT is not, and 0 otherwise. -/
def claimed_direction_x (input : Nat) : ℚ :=
  if input &&& INPUT_RIGHT ≠ 0 ∧ input &&& INPUT_LEFT = 0 then 1
  else if input &&& INPUT_LEFT ≠ 0 ∧ input &&& INPUT_RIGHT = 0 then -1
  else 0

/-! ### src/game.rs session establishment -/

/-- Outcome of one invocation of wait_for_players. -/
inductive SessionOutcome where
  | alreadyStarted
  | waiting
  | started (input_delay : Nat) (assignments : List (Nat × Nat))
  | setupFailure
deriving DecidableEq

/-- Modelled from the spec: the session builder add_player call is ggrs
library code, absent from this repository. Per the error-handling section of
the spec, establishment errors abort startup; adding a peer succeeds exactly
when its handle is a valid player slot for the configured player count. -/
def add_player_ok (num_players handle : Nat) : Bool := decide (handle < num_players)

/-- src/game.rs wait_for_players: return if the channel is gone (session
already started); wait while fewer than two peers are known; otherwise build
a session with input delay 2, adding each peer with a handle equal to its
position in order of appearance (a failed add_player aborts startup), and
start it. Assignments are (peer, handle) pairs. -/
def wait_for_players (channel_open : Bool) (peers : List Nat) : SessionOutcome :=
  if channel_open = false then .alreadyStarted
  else if peers.length < 2 then .waiting
  else if (List.range peers.length).all (fun i => add_player_ok 2 i) then
    .started 2 (peers.enum.map (fun x => (x.2, x.1)))
  else .setupFailure

/-! ### Helper lemmas about the collision scan -/

theorem groundCheck_eq (parent : Nat → Option Nat) (g pe : Nat) (j : Bool)
    (p : Player) (c : Contacts) :
    groundCheck parent g pe j p c =
      if is_player_collision parent pe c && has_ground g c then
        if !j && decide (p.jumps_remaining < 2) then
          { p with is_grounded := true, jumps_remaining := 2 }
        else { p with is_grounded := true }
      else p := rfl

theorem groundCheck_previous_input (parent : Nat → Option Nat) (g pe : Nat)
    (j : Bool) (p : Player) (c : Contacts) :
    (groundCheck parent g pe j p c).previous_input = p.previous_input := by
  rw [groundCheck_eq]; split <;> [skip; rfl]; split <;> rfl

theorem groundCheck_jumps_of_jumping (parent : Nat → Option Nat) (g pe : Nat)
    (p : Player) (c : Contacts) :
    (groundCheck parent g pe true p c).jumps_remaining = p.jumps_remaining := by
  rw [groundCheck_eq]; split <;> simp

theorem groundCheck_jumps_cases (parent : Nat → Option Nat) (g pe : Nat)
    (j : Bool) (p : Player) (c : Contacts) :
    (groundCheck parent g pe j p c).jumps_remaining = p.jumps_remaining ∨
      (groundCheck parent g pe j p c).jumps_remaining = 2 := by
  rw [groundCheck_eq]; split <;> [skip; exact Or.inl rfl]
  split <;> [exact Or.inr rfl; exact Or.inl rfl]

theorem groundCheck_grounded_mono (parent : Nat → Option Nat) (g pe : Nat)
    (j : Bool) (p : Player) (c : Contacts) (h : p.is_grounded = true) :
    (groundCheck parent g pe j p c).is_grounded = true := by
  rw [groundCheck_eq]; split <;> [skip; exact h]; split <;> rfl

theorem groundCheck_grounded_of_match (parent : Nat → Option Nat) (g pe : Nat)
    (j : Bool) (p : Player) (c : Contacts)
    (h : grounding_contact parent g pe c = true) :
    (groundCheck parent g pe j p c).is_grounded = true := by
  have h' : (is_player_collision parent pe c && has_ground g c) = true := h
  rw [groundCheck_eq, if_pos h']; split <;> rfl

theorem groundScan_previous_input (parent : Nat → Option Nat) (g pe : Nat)
    (j : Bool) (p : Player) (evs : List Contacts) :
    (groundScan parent g pe j p evs).previous_input = p.previous_input := by
  induction evs generalizing p with
  | nil => rfl
  | cons c cs ih =>
      rw [groundScan, ih, groundCheck_previous_input]

theorem groundScan_jumps_of_jumping (parent : Nat → Option Nat) (g pe : Nat)
    (p : Player) (evs : List Contacts) :
    (groundScan parent g pe true p evs).jumps_remaining = p.jumps_remaining := by
  induction evs generalizing p with
  | nil => rfl
  | cons c cs ih =>
      rw [groundScan, ih, groundCheck_jumps_of_jumping]

theorem groundScan_jumps_cases (parent : Nat → Option Nat) (g pe : Nat)
    (j : Bool) (p : Player) (evs : List Contacts) :
    (groundScan parent g pe j p evs).jumps_remaining = p.jumps_remaining ∨
      (groundScan parent g pe j p evs).jumps_remaining = 2 := by
  induction evs generalizing p with
  | nil => exact Or.inl rfl
  | cons c cs ih =>
      rw [groundScan]
      rcases ih (groundCheck parent g pe j p c) with h | h
      · rw [h]; exact groundCheck_jumps_cases parent g pe j p c
      · exact Or.inr h

theorem groundScan_grounded_mono (parent : Nat → Option Nat) (g pe : Nat)
    (j : Bool) (p : Player) (evs : List Contacts) (h : p.is_grounded = true) :
    (groundScan parent g pe j p evs).is_grounded = true := by
  induction evs generalizing p with
  | nil => exact h
  | cons c cs ih =>
      rw [groundScan]
      exact ih _ (groundCheck_grounded_mono parent g pe j p c h)

theorem groundScan_grounded_of_match (parent : Nat → Option Nat) (g pe : Nat)
    (j : Bool) (p : Player) (evs : List Contacts)
    (h : ∃ c ∈ evs, grounding_contact parent g pe c = true) :
    (groundScan parent g pe j p evs).is_grounded = true := by
  induction evs generalizing p with
  | nil => exact absurd h (by simp)
  | cons c cs ih =>
      rw [groundScan]
      rcases h with ⟨d, hd, hmatch⟩
      rcases List.mem_cons.mp hd with rfl | hmem
      · exact groundScan_grounded_mono parent g pe j _ cs
          (groundCheck_grounded_of_match parent g pe j p d hmatch)
      · exact ih _ ⟨d, hmem, hmatch⟩

theorem groundScan_jumps_two_of_match (parent : Nat → Option Nat) (g pe : Nat)
    (p : Player) (evs : List Contacts) (hle : p.jumps_remaining ≤ 2)
    (h : ∃ c ∈ evs, grounding_contact parent g pe c = true) :
    (groundScan parent g pe false p evs).jumps_remaining = 2 := by
  induction evs generalizing p with
  | nil => exact absurd h (by simp)
  | cons c cs ih =>
      rw [groundScan]
      rcases h with ⟨d, hd, hmatch⟩
      rcases List.mem_cons.mp hd with rfl | hmem
      · have h2 : (groundCheck parent g pe false p d).jumps_remaining = 2 := by
          have h' : (is_player_collision parent pe d && has_ground g d) = true := hmatch
          rw [groundCheck_eq, if_pos h']
          split
          · rfl
          · next hlt =>
              simp only [Bool.not_false, Bool.true_and, decide_eq_true_eq] at hlt
              show p.jumps_remaining = 2
              omega
        rcases groundScan_jumps_cases parent g pe false
            (groundCheck parent g pe false p d) cs with hc | hc
        · rw [hc, h2]
        · exact hc
      · rcases groundCheck_jumps_cases parent g pe false p c with hc | hc
        · exact ih _ (by rw [hc]; exact hle) ⟨d, hmem, hmatch⟩
        · exact ih _ (by rw [hc]) ⟨d, hmem, hmatch⟩

theorem groundCheck_fixpoint (parent : Nat → Option Nat) (g pe : Nat) (j : Bool)
    (p : Player) (c : Contacts) (hg : p.is_grounded = true)
    (hj : j = true ∨ ¬ p.jumps_remaining < 2) :
    groundCheck parent g pe j p c = p := by
  have hset : { p with is_grounded := true } = p := by
    obtain ⟨a, b, gr, pi⟩ := p
    have hgr : gr = true := hg
    rw [hgr]
  rw [groundCheck_eq]
  split
  · split
    · next hlt =>
        simp only [Bool.and_eq_true, Bool.not_eq_eq_eq_not, Bool.not_true,
          decide_eq_true_eq] at hlt
        rcases hj with hj | hj
        · rw [hj] at hlt; exact absurd hlt.1 (by simp)
        · exact absurd hlt.2 hj
    · exact hset
  · rfl

theorem groundScan_fixpoint (parent : Nat → Option Nat) (g pe : Nat) (j : Bool)
    (p : Player) (evs : List Contacts) (hg : p.is_grounded = true)
    (hj : j = true ∨ ¬ p.jumps_remaining < 2) :
    groundScan parent g pe j p evs = p := by
  induction evs with
  | nil => rfl
  | cons c cs ih =>
      rw [groundScan, groundCheck_fixpoint parent g pe j p c hg hj, ih]

theorem groundCheck_congr (parent : Nat → Option Nat) (g pe : Nat) (j : Bool)
    (p₁ p₂ : Player) (c : Contacts)
    (hjr : p₁.jumps_remaining = p₂.jumps_remaining)
    (hgr : p₁.is_grounded = p₂.is_grounded) :
    (groundCheck parent g pe j p₁ c).jumps_remaining
        = (groundCheck parent g pe j p₂ c).jumps_remaining ∧
      (groundCheck parent g pe j p₁ c).is_grounded
        = (groundCheck parent g pe j p₂ c).is_grounded := by
  rw [groundCheck_eq, groundCheck_eq, hjr]
  split <;> [skip; exact ⟨hjr, hgr⟩]
  split <;> exact ⟨rfl, rfl⟩

theorem groundScan_congr (parent : Nat → Option Nat) (g pe : Nat) (j : Bool)
    (p₁ p₂ : Player) (evs : List Contacts)
    (hjr : p₁.jumps_remaining = p₂.jumps_remaining)
    (hgr : p₁.is_grounded = p₂.is_grounded) :
    (groundScan parent g pe j p₁ evs).jumps_remaining
        = (groundScan parent g pe j p₂ evs).jumps_remaining ∧
      (groundScan parent g pe j p₁ evs).is_grounded
        = (groundScan parent g pe j p₂ evs).is_grounded := by
  induction evs generalizing p₁ p₂ with
  | nil => exact ⟨hjr, hgr⟩
  | cons c cs ih =>
      rw [groundScan, groundScan]
      have h := groundCheck_congr parent g pe j p₁ p₂ c hjr hgr
      exact ih _ _ h.1 h.2

/-! ### Helper lemmas about the per-player step -/

theorem u8_dec_eq_sub {n : Nat} (h0 : 0 < n) (h : n < 256) : u8_dec n = n - 1 := by
  unfold u8_dec; omega

theorem jump_now_iff (p : Player) (input : Nat) :
    jump_now p input = true ↔
      (input &&& INPUT_UP ≠ 0 ∧ p.previous_input &&& INPUT_UP = 0 ∧
        0 < p.jumps_remaining) := by
  simp [jump_now, and_assoc]

theorem move_player_eq (parent : Nat → Option Nat) (g pe input : Nat)
    (evs : List Contacts) (p : Player) (v : Vec2) (f : Bool) :
    move_player parent g pe input evs p v f =
      ⟨groundScan parent g pe (jump_now p input)
          { p with
              jumps_remaining :=
                if jump_now p input then u8_dec p.jumps_remaining
                else p.jumps_remaining,
              previous_input := input, is_grounded := false } evs,
        ⟨(get_input_direction input).x * 7,
          if jump_now p input then 10 else v.y⟩,
        if input &&& INPUT_LEFT ≠ 0 then true
        else if input &&& INPUT_RIGHT ≠ 0 then false
        else f⟩ := by
  cases hj : jump_now p input <;> simp [move_player, hj]

theorem groundScan_jumps_le_two (parent : Nat → Option Nat) (g pe : Nat)
    (j : Bool) (p : Player) (evs : List Contacts) (h : p.jumps_remaining ≤ 2) :
    (groundScan parent g pe j p evs).jumps_remaining ≤ 2 := by
  rcases groundScan_jumps_cases parent g pe j p evs with hc | hc <;> omega

theorem move_player_jumps_le_two (parent : Nat → Option Nat) (g pe input : Nat)
    (evs : List Contacts) (p : Player) (v : Vec2) (f : Bool)
    (h : p.jumps_remaining ≤ 2) :
    (move_player parent g pe input evs p v f).player.jumps_remaining ≤ 2 := by
  rw [move_player_eq]
  apply groundScan_jumps_le_two
  show (if jump_now p input then u8_dec p.jumps_remaining else p.jumps_remaining) ≤ 2
  by_cases hj : jump_now p input = true
  · rw [if_pos hj]
    have h0 : 0 < p.jumps_remaining := ((jump_now_iff p input).mp hj).2.2
    rw [u8_dec_eq_sub h0 (by omega)]
    omega
  · rw [if_neg (by simpa using hj)]
    exact h

theorem get_input_direction_x (input : Nat) :
    (get_input_direction input).x = claimed_direction_x input := by
  unfold get_input_direction claimed_direction_x
  by_cases hr : input &&& INPUT_RIGHT = 0 <;> by_cases hl : input &&& INPUT_LEFT = 0 <;>
    simp [hr, hl]

theorem and_after_xor_sixteen (i m : Nat) (hm : 16 &&& m = 0) :
    (i ^^^ 16) &&& m = i &&& m := by
  rw [Nat.and_xor_distrib_right, hm, Nat.xor_zero]

theorem get_input_direction_congr (i j : Nat)
    (h2 : i &&& INPUT_LEFT = j &&& INPUT_LEFT)
    (h4 : i &&& INPUT_RIGHT = j &&& INPUT_RIGHT) :
    get_input_direction i = get_input_direction j := by
  unfold get_input_direction
  rw [h2, h4]

theorem jump_now_congr (p : Player) (i j : Nat)
    (h1 : i &&& INPUT_UP = j &&& INPUT_UP) :
    jump_now p i = jump_now p j := by
  unfold jump_now
  rw [h1]

theorem groundScan_saturates (parent : Nat → Option Nat) (g pe : Nat) (j : Bool)
    (p : Player) (c : Contacts) (cs : List Contacts)
    (hc : grounding_contact parent g pe c = true) :
    groundScan parent g pe j p (c :: cs) = groundCheck parent g pe j p c := by
  rw [groundScan]
  apply groundScan_fixpoint
  · exact groundCheck_grounded_of_match parent g pe j p c hc
  · cases j
    · right
      have h' : (is_player_collision parent pe c && has_ground g c) = true := hc
      rw [groundCheck_eq, if_pos h']
      split
      · show ¬ (2 < 2)
        omega
      · next hlt =>
          simp only [Bool.not_false, Bool.true_and, decide_eq_true_eq] at hlt
          exact hlt
    · exact Or.inl rfl

/-! ### Claims -/

/-- Claim C1: the per-tick step is deterministic. Two invocations of
move_players with identical ground entity, parent relation, per-handle
inputs, collision records and player rows produce identical resulting
player states and body velocities. -/
theorem move_players_deterministic (g₁ g₂ : Option Nat)
    (par₁ par₂ : Nat → Option Nat) (inp₁ inp₂ : Nat → Nat)
    (evs₁ evs₂ : List Contacts) (rows₁ rows₂ : List PlayerRow)
    (hg : g₁ = g₂) (hpar : par₁ = par₂) (hinp : inp₁ = inp₂)
    (hevs : evs₁ = evs₂) (hrows : rows₁ = rows₂) :
    move_players g₁ par₁ inp₁ evs₁ rows₁ = move_players g₂ par₂ inp₂ evs₂ rows₂ := by
  rw [hg, hpar, hinp, hevs, hrows]

/-- Witness for C1 at a concrete two-player tick. -/
theorem move_players_deterministic_witness :
    move_players (some 1) (fun _ => none) (fun _ => 1) [⟨10, 1⟩]
        [⟨10, ⟨0, 2, false, 0⟩, ⟨0, 0⟩, false⟩]
      = move_players (some 1) (fun _ => none) (fun _ => 1) [⟨10, 1⟩]
        [⟨10, ⟨0, 2, false, 0⟩, ⟨0, 0⟩, false⟩] :=
  move_players_deterministic _ _ _ _ _ _ _ _ _ _ rfl rfl rfl rfl rfl

/-- Claim C2: jump edge detection. The stored previous_input always becomes
the current input. When MOVE_UP is set now, was clear in previous_input, and
jumps remain, the step sets vertical velocity to the impulse 10 and
decrements jumps_remaining by exactly one (even if grounding contacts occur
the same tick). Otherwise, in particular while MOVE_UP is held across
consecutive ticks, no jump fires: vertical velocity is untouched and
jumps_remaining is never decremented (it stays or is reset to 2 by a
grounding contact). -/
theorem jump_edge_detection (parent : Nat → Option Nat) (g pe input : Nat)
    (evs : List Contacts) (p : Player) (v : Vec2) (f : Bool)
    (h8 : p.jumps_remaining < 256) :
    (move_player parent g pe input evs p v f).player.previous_input = input ∧
      ((input &&& INPUT_UP ≠ 0 ∧ p.previous_input &&& INPUT_UP = 0 ∧
          0 < p.jumps_remaining) →
        (move_player parent g pe input evs p v f).velocity.y = 10 ∧
          (move_player parent g pe input evs p v f).player.jumps_remaining
            = p.jumps_remaining - 1) ∧
      (¬ (input &&& INPUT_UP ≠ 0 ∧ p.previous_input &&& INPUT_UP = 0 ∧
          0 < p.jumps_remaining) →
        (move_player parent g pe input evs p v f).velocity.y = v.y ∧
          ((move_player parent g pe input evs p v f).player.jumps_remaining
              = p.jumps_remaining ∨
            (move_player parent g pe input evs p v f).player.jumps_remaining = 2)) := by
  rw [move_player_eq]
  refine ⟨?_, ?_, ?_⟩
  · rw [groundScan_previous_input]
  · intro hcond
    have hj : jump_now p input = true := (jump_now_iff p input).mpr hcond
    rw [hj]
    refine ⟨rfl, ?_⟩
    rw [groundScan_jumps_of_jumping]
    exact u8_dec_eq_sub hcond.2.2 h8
  · intro hcond
    have hj : jump_now p input = false := by
      cases h : jump_now p input
      · rfl
      · exact absurd ((jump_now_iff p input).mp h) hcond
    rw [hj]
    refine ⟨rfl, ?_⟩
    have := groundScan_jumps_cases parent g pe (jump_now p input)
      { p with
          jumps_remaining :=
            if jump_now p input then u8_dec p.jumps_remaining else p.jumps_remaining,
          previous_input := input, is_grounded := false } evs
    rw [hj] at this
    simpa using this

/-- Witness for C2: a player with two jumps and UP newly pressed jumps; the
same player holding UP does not. -/
theorem jump_edge_detection_witness :
    (move_player (fun _ => none) 1 10 1 [] ⟨0, 2, false, 0⟩ ⟨0, -5⟩ false).velocity.y = 10 ∧
      (move_player (fun _ => none) 1 10 1 [] ⟨0, 2, false, 1⟩ ⟨0, -5⟩ false).velocity.y = -5 := by
  constructor
  · exact ((jump_edge_detection (fun _ => none) 1 10 1 [] ⟨0, 2, false, 0⟩ ⟨0, -5⟩ false
      (by decide)).2.1 (by decide)).1
  · exact ((jump_edge_detection (fun _ => none) 1 10 1 [] ⟨0, 2, false, 1⟩ ⟨0, -5⟩ false
      (by decide)).2.2 (by decide)).1

/-- Claim C3: jump-count invariant. From any player state with at most two
jumps remaining, any sequence of tick steps (arbitrary inputs and collision
records each tick) keeps jumps_remaining between 0 and 2; in the byte
semantics of the counter the guarded decrement never wraps below zero. -/
theorem jumps_remaining_invariant (parent : Nat → Option Nat) (g pe : Nat)
    (p : Player) (v : Vec2) (f : Bool) (ticks : List (Nat × List Contacts))
    (h : p.jumps_remaining ≤ 2) :
    (run_ticks parent g pe (p, v, f) ticks).1.jumps_remaining ≤ 2 := by
  induction ticks generalizing p v f with
  | nil => exact h
  | cons t rest ih =>
      obtain ⟨input, evs⟩ := t
      rw [run_ticks]
      exact ih _ _ _ (move_player_jumps_le_two parent g pe input evs p v f h)

/-- Witness for C3: three ticks (a jump, a held tick, a grounded tick) from a
full-jump state stay within the bound. -/
theorem jumps_remaining_invariant_witness :
    (run_ticks (fun _ => none) 1 10 (⟨0, 2, false, 0⟩, ⟨0, 0⟩, false)
        [(1, []), (1, []), (0, [⟨10, 1⟩])]).1.jumps_remaining ≤ 2 :=
  jumps_remaining_invariant (fun _ => none) 1 10 ⟨0, 2, false, 0⟩ ⟨0, 0⟩ false
    [(1, []), (1, []), (0, [⟨10, 1⟩])] (by decide)

/-- Claim C4 is violated by the code: the collision EventReader is drained by
the first player iteration, so a later-iterated player never sees the tick
collision records. Concretely: ground entity 1, two players (entity 10 with
child collider 11, entity 20 with child collider 21), one record pairing
collider 21 with the ground. When player 20 is iterated second it stays
ungrounded with zero jumps; iterated first, the very same record grounds it
and resets its jumps to 2. -/
theorem grounding_scan_order_dependent :
    (move_players (some 1)
          (fun e => if e = 11 then some 10 else if e = 21 then some 20 else none)
          (fun _ => 0) [⟨21, 1⟩]
          [⟨10, ⟨0, 2, false, 0⟩, ⟨0, 0⟩, false⟩,
            ⟨20, ⟨1, 0, false, 0⟩, ⟨0, 0⟩, false⟩]).map
        (fun r => (r.player.is_grounded, r.player.jumps_remaining))
      = [(false, 2), (false, 0)] ∧
    (move_players (some 1)
          (fun e => if e = 11 then some 10 else if e = 21 then some 20 else none)
          (fun _ => 0) [⟨21, 1⟩]
          [⟨20, ⟨1, 0, false, 0⟩, ⟨0, 0⟩, false⟩,
            ⟨10, ⟨0, 2, false, 0⟩, ⟨0, 0⟩, false⟩]).map
        (fun r => (r.player.is_grounded, r.player.jumps_remaining))
      = [(true, 2), (false, 2)] := by
  constructor <;> decide

/-- Claim C5: same-tick jump and landing policy, for the records a player
iteration actually reads. With at least one grounding contact among them: a
tick that triggers a jump still ends grounded, keeps the jump impulse 10 on
vertical velocity, and keeps jumps_remaining at the decremented value (the
mid-jump guard blocks the reset); a tick with no jump and fewer than two
jumps remaining ends grounded with jumps_remaining reset to 2. -/
theorem same_tick_jump_landing (parent : Nat → Option Nat) (g pe input : Nat)
    (evs : List Contacts) (p : Player) (v : Vec2) (f : Bool)
    (h8 : p.jumps_remaining < 256)
    (hc : ∃ c ∈ evs, grounding_contact parent g pe c = true) :
    ((input &&& INPUT_UP ≠ 0 ∧ p.previous_input &&& INPUT_UP = 0 ∧
        0 < p.jumps_remaining) →
      (move_player parent g pe input evs p v f).player.is_grounded = true ∧
        (move_player parent g pe input evs p v f).player.jumps_remaining
          = p.jumps_remaining - 1 ∧
        (move_player parent g pe input evs p v f).velocity.y = 10) ∧
    (¬ (input &&& INPUT_UP ≠ 0 ∧ p.previous_input &&& INPUT_UP = 0 ∧
        0 < p.jumps_remaining) → p.jumps_remaining < 2 →
      (move_player parent g pe input evs p v f).player.is_grounded = true ∧
        (move_player parent g pe input evs p v f).player.jumps_remaining = 2) := by
  rw [move_player_eq]
  constructor
  · intro hcond
    have hj : jump_now p input = true := (jump_now_iff p input).mpr hcond
    rw [hj]
    refine ⟨groundScan_grounded_of_match parent g pe true _ evs hc, ?_, rfl⟩
    rw [groundScan_jumps_of_jumping]
    exact u8_dec_eq_sub hcond.2.2 h8
  · intro hcond hlt
    have hj : jump_now p input = false := by
      cases h : jump_now p input
      · rfl
      · exact absurd ((jump_now_iff p input).mp h) hcond
    rw [hj]
    refine ⟨groundScan_grounded_of_match parent g pe false _ evs hc, ?_⟩
    exact groundScan_jumps_two_of_match parent g pe _ evs (by simp; omega) hc

/-- Witness for C5: both branches at concrete inputs — a jumping tick with a
ground contact ends grounded at one jump, a grounded tick with one jump left
ends grounded at two jumps. -/
theorem same_tick_jump_landing_witness :
    ((move_player (fun _ => none) 1 10 1 [⟨10, 1⟩] ⟨0, 2, false, 0⟩ ⟨0, 0⟩ false).player.is_grounded
        = true ∧
      (move_player (fun _ => none) 1 10 1 [⟨10, 1⟩] ⟨0, 2, false, 0⟩ ⟨0, 0⟩ false).player.jumps_remaining
        = 1 ∧
      (move_player (fun _ => none) 1 10 1 [⟨10, 1⟩] ⟨0, 2, false, 0⟩ ⟨0, 0⟩ false).velocity.y
        = 10) ∧
    ((move_player (fun _ => none) 1 10 0 [⟨10, 1⟩] ⟨0, 1, false, 0⟩ ⟨0, 0⟩ false).player.is_grounded
        = true ∧
      (move_player (fun _ => none) 1 10 0 [⟨10, 1⟩] ⟨0, 1, false, 0⟩ ⟨0, 0⟩ false).player.jumps_remaining
        = 2) := by
  constructor
  · exact (same_tick_jump_landing (fun _ => none) 1 10 1 [⟨10, 1⟩] ⟨0, 2, false, 0⟩
      ⟨0, 0⟩ false (by decide) ⟨⟨10, 1⟩, by decide, by decide⟩).1 (by decide)
  · exact (same_tick_jump_landing (fun _ => none) 1 10 0 [⟨10, 1⟩] ⟨0, 1, false, 0⟩
      ⟨0, 0⟩ false (by decide) ⟨⟨10, 1⟩, by decide, by decide⟩).2 (by decide) (by decide)

/-- Claim C6: grounding idempotence. A tick whose scan reads any nonempty
list of grounding contacts for the player produces exactly the same step
output as the same tick reading just the first such record: grounded state,
jumps, velocity and sprite flip all coincide (the reset is a saturation, not
a counter). -/
theorem grounding_idempotence (parent : Nat → Option Nat) (g pe input : Nat)
    (p : Player) (v : Vec2) (f : Bool) (c : Contacts) (cs : List Contacts)
    (hall : ∀ d ∈ c :: cs, grounding_contact parent g pe d = true) :
    move_player parent g pe input (c :: cs) p v f
      = move_player parent g pe input [c] p v f := by
  rw [move_player_eq, move_player_eq]
  have hc : grounding_contact parent g pe c = true := hall c (List.mem_cons_self c cs)
  rw [groundScan_saturates parent g pe _ _ c cs hc,
    groundScan_saturates parent g pe _ _ c [] hc]

/-- Witness for C6: three simultaneous copies of a grounding record act like
one. -/
theorem grounding_idempotence_witness :
    move_player (fun _ => none) 1 10 0 [⟨10, 1⟩, ⟨10, 1⟩, ⟨1, 10⟩] ⟨0, 1, false, 0⟩ ⟨0, 0⟩ false
      = move_player (fun _ => none) 1 10 0 [⟨10, 1⟩] ⟨0, 1, false, 0⟩ ⟨0, 0⟩ false :=
  grounding_idempotence (fun _ => none) 1 10 0 ⟨0, 1, false, 0⟩ ⟨0, 0⟩ false
    ⟨10, 1⟩ [⟨10, 1⟩, ⟨1, 10⟩] (by decide)

/-- Claim C7: non-accumulating horizontal movement. After every step the
horizontal velocity equals the decoded direction times the move speed 7,
where the direction is +1 for MOVE_RIGHT alone, -1 for MOVE_LEFT alone and 0
otherwise; the value never depends on the incoming velocity, so re-applying
the step with the same input reproduces it. -/
theorem horizontal_velocity_assignment (parent : Nat → Option Nat)
    (g pe input : Nat) (evs : List Contacts) (p : Player) (v : Vec2) (f : Bool) :
    (move_player parent g pe input evs p v f).velocity.x
        = claimed_direction_x input * 7 ∧
      (get_input_direction input).x = claimed_direction_x input ∧
      (∀ v₂ : Vec2, (move_player parent g pe input evs p v₂ f).velocity.x
        = (move_player parent g pe input evs p v f).velocity.x) := by
  refine ⟨?_, get_input_direction_x input, ?_⟩
  · rw [move_player_eq]
    show (get_input_direction input).x * 7 = claimed_direction_x input * 7
    rw [get_input_direction_x input]
  · intro v₂
    rw [move_player_eq, move_player_eq]

/-- Claim C8: session-start condition. With the channel still open: below two
known peers wait_for_players returns waiting; with exactly two peers it
starts a session with input delay 2, assigning each peer the handle equal to
its position in order of appearance; and a started session can only arise
from exactly two peers (any extra peer makes an add_player call fail, which
aborts startup). -/
theorem session_start_condition (peers : List Nat) :
    (peers.length < 2 → wait_for_players true peers = .waiting) ∧
      (peers.length = 2 →
        wait_for_players true peers
          = .started 2 (peers.enum.map (fun x => (x.2, x.1)))) ∧
      (∀ d a, wait_for_players true peers = .started d a →
        peers.length = 2 ∧ d = 2) := by
  have hch : ¬ (true = false) := by decide
  refine ⟨?_, ?_, ?_⟩
  · intro h
    unfold wait_for_players
    rw [if_neg hch, if_pos h]
  · intro h
    have hall : ((List.range peers.length).all fun i => add_player_ok 2 i) = true := by
      rw [h]; decide
    unfold wait_for_players
    rw [if_neg hch, if_neg (by omega : ¬ peers.length < 2), if_pos hall]
  · intro d a h
    unfold wait_for_players at h
    rw [if_neg hch] at h
    by_cases h1 : peers.length < 2
    · rw [if_pos h1] at h
      exact absurd h (by simp)
    · rw [if_neg h1] at h
      by_cases h2 : ((List.range peers.length).all fun i => add_player_ok 2 i) = true
      · rw [if_pos h2] at h
        have hlen : peers.length ≤ 2 := by
          by_contra hgt
          have h3 := List.all_eq_true.mp h2 2 (List.mem_range.mpr (by omega))
          simp [add_player_ok] at h3
        injection h with hd ha
        exact ⟨by omega, hd.symm⟩
      · rw [if_neg h2] at h
        exact absurd h (by simp)

/-- Witness for C8: two peers 7 and 9 start a session with delay 2 and
handles 0 and 1 in order of appearance; a single peer keeps waiting. -/
theorem session_start_condition_witness :
    wait_for_players true [7, 9] = .started 2 [(7, 0), (9, 1)] ∧
      wait_for_players true [7] = .waiting := by
  constructor
  · have h := (session_start_condition [7, 9]).2.1 (by decide)
    simpa using h
  · exact (session_start_condition [7]).1 (by decide)

/-- Claim C9: decode totality. For every byte value the direction decode is
defined with no error branch: its horizontal component is one of 1, -1, 0,
its vertical component is 0, and the zero frame decodes to the zero
vector. -/
theorem decode_totality (input : Nat) (_h : input < 256) :
    ((get_input_direction input).x = 1 ∨ (get_input_direction input).x = -1 ∨
        (get_input_direction input).x = 0) ∧
      (get_input_direction input).y = 0 ∧
      (input = 0 → get_input_direction input = ⟨0, 0⟩) := by
  refine ⟨?_, ?_, ?_⟩
  · by_cases hr : input &&& INPUT_RIGHT = 0 <;> by_cases hl : input &&& INPUT_LEFT = 0 <;>
      simp [get_input_direction, hr, hl]
  · by_cases hr : input &&& INPUT_RIGHT = 0 <;> by_cases hl : input &&& INPUT_LEFT = 0 <;>
      simp [get_input_direction, hr, hl]
  · intro h0
    rw [h0]
    rfl

/-- Witness for C9 at the byte values 0 and 6 (LEFT and RIGHT together). -/
theorem decode_totality_witness :
    (((get_input_direction 6).x = 1 ∨ (get_input_direction 6).x = -1 ∨
        (get_input_direction 6).x = 0) ∧ (get_input_direction 6).y = 0 ∧
        (6 = 0 → get_input_direction 6 = ⟨0, 0⟩)) ∧
      get_input_direction 0 = ⟨0, 0⟩ := by
  constructor
  · exact decode_totality 6 (by decide)
  · exact (decode_totality 0 (by decide)).2.2 rfl

/-- Claim C10: the UP_JUST_PRESSED bit (bit 4) does not interfere with the
simulation. Toggling it in the current input leaves the step velocities,
jumps_remaining and is_grounded unchanged; the jump edge is derived from the
MOVE_UP bit of the current and previous input alone. -/
theorem up_pressed_bit_noninterference (parent : Nat → Option Nat)
    (g pe input : Nat) (evs : List Contacts) (p : Player) (v : Vec2) (f : Bool) :
    (move_player parent g pe (input ^^^ INPUT_UP_PRESSED) evs p v f).velocity
        = (move_player parent g pe input evs p v f).velocity ∧
      (move_player parent g pe (input ^^^ INPUT_UP_PRESSED) evs p v f).player.jumps_remaining
        = (move_player parent g pe input evs p v f).player.jumps_remaining ∧
      (move_player parent g pe (input ^^^ INPUT_UP_PRESSED) evs p v f).player.is_grounded
        = (move_player parent g pe input evs p v f).player.is_grounded := by
  have h1 : (input ^^^ INPUT_UP_PRESSED) &&& INPUT_UP = input &&& INPUT_UP :=
    and_after_xor_sixteen input 1 (by decide)
  have h2 : (input ^^^ INPUT_UP_PRESSED) &&& INPUT_LEFT = input &&& INPUT_LEFT :=
    and_after_xor_sixteen input 2 (by decide)
  have h4 : (input ^^^ INPUT_UP_PRESSED) &&& INPUT_RIGHT = input &&& INPUT_RIGHT :=
    and_after_xor_sixteen input 4 (by decide)
  have hjump : jump_now p (input ^^^ INPUT_UP_PRESSED) = jump_now p input :=
    jump_now_congr p _ _ h1
  have hdir : get_input_direction (input ^^^ INPUT_UP_PRESSED)
      = get_input_direction input :=
    get_input_direction_congr _ _ h2 h4
  rw [move_player_eq, move_player_eq]
  refine ⟨?_, ?_, ?_⟩
  · show Vec2.mk ((get_input_direction (input ^^^ INPUT_UP_PRESSED)).x * 7)
        (if jump_now p (input ^^^ INPUT_UP_PRESSED) then 10 else v.y)
      = Vec2.mk ((get_input_direction input).x * 7)
        (if jump_now p input then 10 else v.y)
    rw [hdir, hjump]
  · show (groundScan parent g pe (jump_now p (input ^^^ INPUT_UP_PRESSED))
        { p with
            jumps_remaining :=
              if jump_now p (input ^^^ INPUT_UP_PRESSED) then u8_dec p.jumps_remaining
              else p.jumps_remaining,
            previous_input := input ^^^ INPUT_UP_PRESSED,
            is_grounded := false } evs).jumps_remaining
      = (groundScan parent g pe (jump_now p input)
        { p with
            jumps_remaining :=
              if jump_now p input then u8_dec p.jumps_remaining
              else p.jumps_remaining,
            previous_input := input, is_grounded := false } evs).jumps_remaining
    rw [hjump]
    exact (groundScan_congr parent g pe (jump_now p input)
      { p with
          jumps_remaining :=
            if jump_now p input then u8_dec p.jumps_remaining else p.jumps_remaining,
          previous_input := input ^^^ INPUT_UP_PRESSED, is_grounded := false }
      { p with
          jumps_remaining :=
            if jump_now p input then u8_dec p.jumps_remaining else p.jumps_remaining,
          previous_input := input, is_grounded := false } evs rfl rfl).1
  · rw [hjump]
    exact (groundScan_congr parent g pe (jump_now p input)
      { p with
          jumps_remaining :=
            if jump_now p input then u8_dec p.jumps_remaining else p.jumps_remaining,
          previous_input := input ^^^ INPUT_UP_PRESSED, is_grounded := false }
      { p with
          jumps_remaining :=
            if jump_now p input then u8_dec p.jumps_remaining else p.jumps_remaining,
          previous_input := input, is_grounded := false } evs rfl rfl).2

end Platformer
